import Mathlib

/-!
# Verification of the stock-compass prediction engine and data plumbing

Shallow embedding of the reproducible logic of the repository:

* `src/src/hooks/useStockPrediction.ts` — the deterministic fallback
  prediction `calculateAdvancedPrediction` and its numeric helpers
  (`calculateMovingAverage`, `calculateStandardDeviation`,
  `calculateLinearTrend`), plus the prediction-cache calls;
* `src/supabase/functions/stock-data/index.ts` — `fetchHistoricalData` and
  `fetchMarketOverview`;
* `src/src/hooks/useStockData.ts` — `fetchStockChart`,
  `generateSimulatedChartData`, `fetchMarketOverview`;
* `src/src/utils/stockUtils.ts` — `generateStockData`.

JavaScript numbers are modelled as real numbers (`ℝ`); `Math.random()`
draws are passed in explicitly as parameters ranging over `[0, 1)`;
`Math.round` is Mathlib's `round` (both round halves up).
-/

namespace StockCompass

/-- JS `list.slice(-k)`: the last `k` elements (whole list when shorter). -/
def lastN (k : ℕ) (l : List ℝ) : List ℝ := l.drop (l.length - k)

/-- Embeds `calculateMovingAverage` (useStockPrediction.ts): mean of the
last `period` elements of `data`. -/
noncomputable def calculateMovingAverage (data : List ℝ) (period : ℕ) : ℝ :=
  let relevantData := lastN period data
  relevantData.sum / (relevantData.length : ℝ)

/-- Embeds the `returns` computation of `calculateAdvancedPrediction`:
`historicalData.slice(1).map((price, i) => Math.log(price / historicalData[i]))`.
Zipping the tail with the list pairs each element with its predecessor. -/
noncomputable def logReturns (h : List ℝ) : List ℝ :=
  (h.tail.zip h).map (fun p => Real.log (p.1 / p.2))

/-- Embeds `calculateStandardDeviation` (useStockPrediction.ts): population
standard deviation. -/
noncomputable def calculateStandardDeviation (data : List ℝ) : ℝ :=
  let mean := data.sum / (data.length : ℝ)
  let squaredDifferences := data.map (fun v => (v - mean) ^ 2)
  let variance := squaredDifferences.sum / (data.length : ℝ)
  Real.sqrt variance

/-- Embeds the `sumX` reduce of `calculateLinearTrend`: the sum of
`x = [0, 1, ..., n-1]`. -/
noncomputable def sumIdx : ℕ → ℝ
  | 0 => 0
  | n + 1 => sumIdx n + (n : ℝ)

/-- Embeds the `sumXX` reduce of `calculateLinearTrend`: the sum of
`xi * xi` over `x = [0, 1, ..., n-1]`. -/
noncomputable def sumIdxSq : ℕ → ℝ
  | 0 => 0
  | n + 1 => sumIdxSq n + (n : ℝ) * (n : ℝ)

/-- Embeds the `sumXY` reduce of `calculateLinearTrend`: the sum of
`xi * y[i]`. -/
noncomputable def sumXY (data : List ℝ) : ℝ :=
  (((List.range data.length).zip data).map (fun p => (p.1 : ℝ) * p.2)).sum

/-- Embeds `calculateLinearTrend` (useStockPrediction.ts): least-squares
slope over `x = 0..n-1`, normalized by the mean of the data. -/
noncomputable def calculateLinearTrend (data : List ℝ) : ℝ :=
  let n : ℝ := (data.length : ℝ)
  let sumX := sumIdx data.length
  let sumY := data.sum
  let sXY := sumXY data
  let sumXX := sumIdxSq data.length
  let slope := (n * sXY - sumX * sumY) / (n * sumXX - sumX * sumX)
  slope / (sumY / n)

/-- The `short_ma` of `calculateAdvancedPrediction`:
`calculateMovingAverage(historicalData.slice(-5), 5)`. -/
noncomputable def short_ma (h : List ℝ) : ℝ := calculateMovingAverage (lastN 5 h) 5

/-- The `long_ma` of `calculateAdvancedPrediction`:
`calculateMovingAverage(historicalData.slice(-10), 10)`. -/
noncomputable def long_ma (h : List ℝ) : ℝ := calculateMovingAverage (lastN 10 h) 10

/-- The `volatility` of `calculateAdvancedPrediction`: population standard
deviation of the log-returns of the full history. -/
noncomputable def volatility (h : List ℝ) : ℝ := calculateStandardDeviation (logReturns h)

/-- The `trend` of `calculateAdvancedPrediction`:
`calculateLinearTrend(historicalData.slice(-10))`. -/
noncomputable def trendPart (h : List ℝ) : ℝ := calculateLinearTrend (lastN 10 h)

/-- The `momentum` of `calculateAdvancedPrediction`:
`(currentPrice - h[max(0, len-5)]) / h[max(0, len-5)]` (natural subtraction
supplies the `max(0, ·)`). -/
noncomputable def momentumPart (currentPrice : ℝ) (h : List ℝ) : ℝ :=
  (currentPrice - h.getD (h.length - 5) 0) / h.getD (h.length - 5) 0

/-- The moving-average-crossover contribution to `predictionFactor`:
`+0.01` when `short_ma > long_ma`, else `-0.01`, starting from `0`. -/
noncomputable def crossFactor (h : List ℝ) : ℝ :=
  if short_ma h > long_ma h then 0 + 0.01 else 0 - 0.01

/-- The moving-average-crossover contribution to `confidence`: both
branches add `5` to the base `70`. -/
noncomputable def crossConfidence (h : List ℝ) : ℝ :=
  if short_ma h > long_ma h then 70 + 5 else 70 + 5

/-- `predictionFactor` after the trend and momentum contributions,
before clamping. -/
noncomputable def rawFactor (currentPrice : ℝ) (h : List ℝ) : ℝ :=
  crossFactor h + trendPart h * 0.5 + momentumPart currentPrice h * 0.3

/-- The `maxChange` cap: `Math.min(0.05, volatility * 2)`. -/
noncomputable def maxChange (h : List ℝ) : ℝ := min 0.05 (volatility h * 2)

/-- The clamped `predictionFactor`:
`Math.max(-maxChange, Math.min(maxChange, predictionFactor))`. -/
noncomputable def clampedFactor (currentPrice : ℝ) (h : List ℝ) : ℝ :=
  max (-(maxChange h)) (min (maxChange h) (rawFactor currentPrice h))

/-- The volatility-adjusted confidence:
`Math.max(50, Math.min(95, confidence - volatility * 100))`. -/
noncomputable def adjConfidence (h : List ℝ) : ℝ :=
  max 50 (min 95 (crossConfidence h - volatility h * 100))

/-- Result record of `calculateAdvancedPrediction` (`{price, confidence}`). -/
structure PredictionOutput where
  price : ℝ
  confidence : ℝ

/-- Embeds `calculateAdvancedPrediction` (useStockPrediction.ts).  `rand`
stands for the `Math.random()` draw of the short-history branch; the
`length ≥ 5` branch never reads it. -/
noncomputable def calculateAdvancedPrediction
    (currentPrice : ℝ) (historicalData : List ℝ) (rand : ℝ) : PredictionOutput :=
  if historicalData.length < 5 then
    ⟨currentPrice * (1 + (rand - 0.5) * 0.02), 65⟩
  else
    ⟨currentPrice * (1 + clampedFactor currentPrice historicalData),
     ((round (adjConfidence historicalData) : ℤ) : ℝ)⟩

/-- The volatility is a square root, hence nonnegative. -/
theorem volatility_nonneg (h : List ℝ) : 0 ≤ volatility h :=
  Real.sqrt_nonneg _

/-- The `maxChange` cap is nonnegative since the volatility is. -/
theorem maxChange_nonneg (h : List ℝ) : 0 ≤ maxChange h :=
  le_min (by norm_num) (by nlinarith [volatility_nonneg h])

/-- The clamped prediction factor is bounded by `maxChange` in absolute
value. -/
theorem abs_clampedFactor_le (cp : ℝ) (h : List ℝ) :
    |clampedFactor cp h| ≤ maxChange h := by
  have h0 := maxChange_nonneg h
  rw [clampedFactor, abs_le]
  exact ⟨le_max_left _ _, max_le (by linarith) (min_le_left _ _)⟩

/-- Rounding a value at most an integer `b` stays at most `b`. -/
theorem round_le_of_le {x : ℝ} {b : ℤ} (hxb : x ≤ (b : ℝ)) : round x ≤ b := by
  have h1 : (round x : ℝ) ≤ x + 1 / 2 := round_le_add_half x
  have h2 : (round x : ℝ) < (b : ℝ) + 1 := by linarith
  exact Int.lt_add_one_iff.mp (by exact_mod_cast h2)

/-- Rounding a value at least an integer `a` stays at least `a`. -/
theorem le_round_of_le {x : ℝ} {a : ℤ} (hax : (a : ℝ) ≤ x) : a ≤ round x := by
  rw [round_eq]
  exact Int.le_floor.mpr (by linarith)

/-- The volatility-adjusted confidence lies in the clamp range. -/
theorem adjConfidence_bounds (h : List ℝ) :
    50 ≤ adjConfidence h ∧ adjConfidence h ≤ 95 :=
  ⟨le_max_left _ _, max_le (by norm_num) (min_le_left _ _)⟩

/-- Both crossover branches yield confidence `70 + 5` before the
volatility adjustment. -/
theorem crossConfidence_eq (h : List ℝ) : crossConfidence h = 75 := by
  unfold crossConfidence
  split <;> norm_num

/-- C3: for histories of length at least 5 the fallback takes the
deterministic branch, which reads no source of randomness: two calls with
identical `currentPrice` and `historicalData` but arbitrary random draws
return identical price and confidence. -/
theorem fallback_deterministic_for_long_history
    (currentPrice : ℝ) (h : List ℝ) (r₁ r₂ : ℝ) (hlen : 5 ≤ h.length) :
    calculateAdvancedPrediction currentPrice h r₁ =
      calculateAdvancedPrediction currentPrice h r₂ := by
  simp only [calculateAdvancedPrediction, if_neg (Nat.not_lt.mpr hlen)]

/-- Witness for C3 at `currentPrice = 2`, `h = [1,2,3,4,5]`, draws `0`, `1`. -/
theorem fallback_deterministic_for_long_history_witness :
    5 ≤ ([1, 2, 3, 4, 5] : List ℝ).length ∧
      calculateAdvancedPrediction 2 [1, 2, 3, 4, 5] 0 =
        calculateAdvancedPrediction 2 [1, 2, 3, 4, 5] 1 :=
  ⟨by simp, fallback_deterministic_for_long_history 2 [1, 2, 3, 4, 5] 0 1 (by simp)⟩

/-- C1: the fallback's confidence always lies in `[50, 95]`; and on the
`length ≥ 5` branch (history elements nonzero, `currentPrice ≠ 0` so the
relative change is meaningful) the relative predicted change
`|predictedPrice/currentPrice - 1|` is at most
`max(0.05, 2 * volatility)`, the volatility being the population standard
deviation of the log-returns of the full history. -/
theorem fallback_confidence_range_and_change_bound :
    (∀ (cp : ℝ) (h : List ℝ) (r : ℝ),
        50 ≤ (calculateAdvancedPrediction cp h r).confidence ∧
          (calculateAdvancedPrediction cp h r).confidence ≤ 95) ∧
    (∀ (cp : ℝ) (h : List ℝ) (r : ℝ),
        5 ≤ h.length → (∀ x ∈ h, x ≠ 0) → cp ≠ 0 →
        |(calculateAdvancedPrediction cp h r).price / cp - 1| ≤
          max 0.05 (2 * volatility h)) := by
  constructor
  · intro cp h r
    unfold calculateAdvancedPrediction
    split
    · norm_num
    · constructor
      · have h1 : (50 : ℤ) ≤ round (adjConfidence h) :=
          le_round_of_le (by push_cast; exact (adjConfidence_bounds h).1)
        show (50 : ℝ) ≤ ((round (adjConfidence h) : ℤ) : ℝ)
        exact_mod_cast h1
      · have h1 : round (adjConfidence h) ≤ (95 : ℤ) :=
          round_le_of_le (by push_cast; exact (adjConfidence_bounds h).2)
        show ((round (adjConfidence h) : ℤ) : ℝ) ≤ 95
        exact_mod_cast h1
  · intro cp h r hlen hnz hcp
    simp only [calculateAdvancedPrediction, if_neg (Nat.not_lt.mpr hlen)]
    have hq : cp * (1 + clampedFactor cp h) / cp = 1 + clampedFactor cp h :=
      mul_div_cancel_left₀ _ hcp
    rw [hq, show 1 + clampedFactor cp h - 1 = clampedFactor cp h by ring]
    calc |clampedFactor cp h| ≤ maxChange h := abs_clampedFactor_le cp h
      _ ≤ 0.05 := min_le_left _ _
      _ ≤ max 0.05 (2 * volatility h) := le_max_left _ _

/-- Witness for C1 at `h = [1,2,3,4,5]`, `cp = 1`, draw `0` (second part),
and `cp = 1`, `h = []`, draw `0` (first part). -/
theorem fallback_confidence_range_and_change_bound_witness :
    (50 ≤ (calculateAdvancedPrediction 1 [] 0).confidence ∧
        (calculateAdvancedPrediction 1 [] 0).confidence ≤ 95) ∧
    (5 ≤ ([1, 2, 3, 4, 5] : List ℝ).length ∧
      (∀ x ∈ ([1, 2, 3, 4, 5] : List ℝ), x ≠ 0) ∧ (1 : ℝ) ≠ 0 ∧
      |(calculateAdvancedPrediction 1 [1, 2, 3, 4, 5] 0).price / 1 - 1| ≤
        max 0.05 (2 * volatility [1, 2, 3, 4, 5])) := by
  have hnz : ∀ x ∈ ([1, 2, 3, 4, 5] : List ℝ), x ≠ 0 := by
    intro x hx
    simp only [List.mem_cons, List.not_mem_nil, or_false] at hx
    rcases hx with rfl | rfl | rfl | rfl | rfl <;> norm_num
  exact ⟨fallback_confidence_range_and_change_bound.1 1 [] 0,
    by simp, hnz, by norm_num,
    fallback_confidence_range_and_change_bound.2 1 [1, 2, 3, 4, 5] 0
      (by simp) hnz (by norm_num)⟩

/-- C2: for histories shorter than 5 points the fallback returns
confidence exactly 65 and, for every random draw `r ∈ [0, 1)` and
`currentPrice ≠ 0`, a predicted price within ±1% of the current price. -/
theorem fallback_short_history_result
    (cp : ℝ) (h : List ℝ) (r : ℝ)
    (hlen : h.length < 5) (hr0 : 0 ≤ r) (hr1 : r < 1) (hcp : cp ≠ 0) :
    (calculateAdvancedPrediction cp h r).confidence = 65 ∧
      |(calculateAdvancedPrediction cp h r).price / cp - 1| ≤ 0.01 := by
  simp only [calculateAdvancedPrediction, if_pos hlen]
  refine ⟨by trivial, ?_⟩
  have hq : cp * (1 + (r - 0.5) * 0.02) / cp = 1 + (r - 0.5) * 0.02 :=
    mul_div_cancel_left₀ _ hcp
  rw [hq, show 1 + (r - 0.5) * 0.02 - 1 = (r - 0.5) * 0.02 by ring, abs_le]
  constructor <;> nlinarith

/-- Witness for C2 at `cp = 1`, `h = []`, draw `r = 0`. -/
theorem fallback_short_history_result_witness :
    ([] : List ℝ).length < 5 ∧ (0 : ℝ) ≤ 0 ∧ (0 : ℝ) < 1 ∧ (1 : ℝ) ≠ 0 ∧
      ((calculateAdvancedPrediction 1 [] 0).confidence = 65 ∧
        |(calculateAdvancedPrediction 1 [] 0).price / 1 - 1| ≤ 0.01) :=
  ⟨by simp, le_refl 0, by norm_num, by norm_num,
    fallback_short_history_result 1 [] 0 (by simp) (le_refl 0) (by norm_num) (by norm_num)⟩

/-- C9: on the `length ≥ 5` branch the pre-volatility confidence is
exactly `70 + 5 = 75` in both crossover branches, so the returned
confidence never exceeds 75 (the range `76..95` is unreachable). -/
theorem fallback_confidence_never_exceeds_75
    (h : List ℝ) (hlen : 5 ≤ h.length) :
    crossConfidence h = 75 ∧
      ∀ (cp r : ℝ), (calculateAdvancedPrediction cp h r).confidence ≤ 75 := by
  refine ⟨crossConfidence_eq h, fun cp r => ?_⟩
  simp only [calculateAdvancedPrediction, if_neg (Nat.not_lt.mpr hlen)]
  have hle : adjConfidence h ≤ 75 := by
    unfold adjConfidence
    rw [crossConfidence_eq h]
    have hv := volatility_nonneg h
    exact max_le (by norm_num) (le_trans (min_le_right _ _) (by linarith))
  have h1 : round (adjConfidence h) ≤ (75 : ℤ) :=
    round_le_of_le (by push_cast; exact hle)
  exact_mod_cast h1

/-- Witness for C9 at `h = [1,2,3,4,5]`, `cp = 1`, draw `0`. -/
theorem fallback_confidence_never_exceeds_75_witness :
    5 ≤ ([1, 2, 3, 4, 5] : List ℝ).length ∧
      (crossConfidence [1, 2, 3, 4, 5] = 75 ∧
        (calculateAdvancedPrediction 1 [1, 2, 3, 4, 5] 0).confidence ≤ 75) := by
  have h := fallback_confidence_never_exceeds_75 [1, 2, 3, 4, 5] (by simp)
  exact ⟨by simp, h.1, h.2 1 0⟩

/-- C10: for positive current price the fallback's predicted price is
positive on both branches: the short-history multiplier
`1 + (r - 0.5) * 0.02` lies in `[0.99, 1.01]` for `r ∈ [0, 1)`, and on the
long branch the clamped factor has `|factor| ≤ 0.05`, so the multiplier is
at least `0.95`. -/
theorem fallback_price_positive
    (cp : ℝ) (h : List ℝ) (r : ℝ) (hcp : 0 < cp) (hr0 : 0 ≤ r) (hr1 : r < 1) :
    (h.length < 5 →
        0.99 ≤ 1 + (r - 0.5) * 0.02 ∧ 1 + (r - 0.5) * 0.02 ≤ 1.01) ∧
    (5 ≤ h.length → |clampedFactor cp h| ≤ 0.05) ∧
    0 < (calculateAdvancedPrediction cp h r).price := by
  have habs : |clampedFactor cp h| ≤ 0.05 :=
    le_trans (abs_clampedFactor_le cp h) (min_le_left _ _)
  refine ⟨fun _ => ⟨by nlinarith, by nlinarith⟩, fun _ => habs, ?_⟩
  unfold calculateAdvancedPrediction
  split
  · have : (0.99 : ℝ) ≤ 1 + (r - 0.5) * 0.02 := by nlinarith
    show 0 < cp * (1 + (r - 0.5) * 0.02)
    nlinarith
  · have h1 : -(0.05 : ℝ) ≤ clampedFactor cp h := neg_le_of_abs_le habs
    show 0 < cp * (1 + clampedFactor cp h)
    nlinarith

/-- Witness for C10 at `cp = 1`, `h = []`, draw `r = 0`. -/
theorem fallback_price_positive_witness :
    (0 : ℝ) < 1 ∧ (0 : ℝ) ≤ 0 ∧ (0 : ℝ) < 1 ∧
      0 < (calculateAdvancedPrediction 1 [] 0).price :=
  ⟨by norm_num, le_refl 0, by norm_num,
    (fallback_price_positive 1 [] 0 (by norm_num) (le_refl 0) (by norm_num)).2.2⟩

/-- The last-`k` window has length `min k (length l)`. -/
theorem lastN_length (k : ℕ) (l : List ℝ) : (lastN k l).length = min k l.length := by
  simp only [lastN, List.length_drop]
  omega

/-- Taking the last `k` twice is the same as taking them once. -/
theorem lastN_lastN (k : ℕ) (l : List ℝ) : lastN k (lastN k l) = lastN k l := by
  have hle : (lastN k l).length ≤ k := by rw [lastN_length]; omega
  show (lastN k l).drop ((lastN k l).length - k) = lastN k l
  rw [Nat.sub_eq_zero_of_le hle, List.drop_zero]

/-- For histories with at least 5 points, `short_ma` is the arithmetic
mean of the last 5 elements. -/
theorem short_ma_eq (h : List ℝ) (hlen : 5 ≤ h.length) :
    short_ma h = (lastN 5 h).sum / 5 := by
  unfold short_ma calculateMovingAverage
  simp only [lastN_lastN, lastN_length]
  have hm : min 5 h.length = 5 := by omega
  rw [hm]
  norm_num

/-- `long_ma` is the arithmetic mean of the last `min 10 (length h)`
elements. -/
theorem long_ma_eq (h : List ℝ) :
    long_ma h = (lastN 10 h).sum / ((min 10 h.length : ℕ) : ℝ) := by
  unfold long_ma calculateMovingAverage
  simp only [lastN_lastN, lastN_length]

/-- The worked example history of the specification. -/
def exHistory : List ℝ := [100, 101, 102, 103, 104, 105, 106, 107, 108, 109]

/-- C4: `short_ma` is the mean of the last 5 elements and `long_ma` the
mean of the last `min 10 len` elements; on the example history
`[100..109]` they are `107` and `104.5`, `short_ma > long_ma`, so the
prediction factor starts at `+0.01` and the confidence starts at `75`. -/
theorem fallback_moving_averages :
    (∀ h : List ℝ, 5 ≤ h.length →
        short_ma h = (lastN 5 h).sum / 5 ∧
          long_ma h = (lastN 10 h).sum / ((min 10 h.length : ℕ) : ℝ)) ∧
    short_ma exHistory = 107 ∧ long_ma exHistory = 104.5 ∧
    short_ma exHistory > long_ma exHistory ∧
    crossFactor exHistory = 0.01 ∧ crossConfidence exHistory = 75 := by
  have hs : short_ma exHistory = 107 := by
    rw [short_ma_eq exHistory (by simp [exHistory])]
    have h5 : lastN 5 exHistory = [105, 106, 107, 108, 109] := rfl
    rw [h5]
    norm_num [List.sum_cons, List.sum_nil]
  have hl : long_ma exHistory = 104.5 := by
    rw [long_ma_eq exHistory]
    have h10 : lastN 10 exHistory = exHistory := rfl
    have hmin : min 10 exHistory.length = 10 := by simp [exHistory]
    rw [h10, hmin]
    norm_num [exHistory, List.sum_cons, List.sum_nil]
  have hgt : short_ma exHistory > long_ma exHistory := by rw [hs, hl]; norm_num
  refine ⟨fun h hlen => ⟨short_ma_eq h hlen, long_ma_eq h⟩, hs, hl, hgt, ?_, ?_⟩
  · unfold crossFactor
    rw [if_pos hgt]
    norm_num
  · unfold crossConfidence
    rw [if_pos hgt]
    norm_num

/-- Witness for C4's quantified part at the example history. -/
theorem fallback_moving_averages_witness :
    5 ≤ exHistory.length ∧
      (short_ma exHistory = (lastN 5 exHistory).sum / 5 ∧
        long_ma exHistory = (lastN 10 exHistory).sum /
          ((min 10 exHistory.length : ℕ) : ℝ)) :=
  ⟨by simp [exHistory], fallback_moving_averages.1 exHistory (by simp [exHistory])⟩

/-- Gauss sum: twice the sum of `0..n-1`. -/
theorem two_mul_sumIdx (n : ℕ) : 2 * sumIdx n = (n : ℝ) * ((n : ℝ) - 1) := by
  induction n with
  | zero => simp [sumIdx]
  | succ k ih =>
    rw [sumIdx, mul_add, ih]
    push_cast
    ring

/-- Square pyramidal sum: six times the sum of squares of `0..n-1`. -/
theorem six_mul_sumIdxSq (n : ℕ) :
    6 * sumIdxSq n = (n : ℝ) * ((n : ℝ) - 1) * (2 * (n : ℝ) - 1) := by
  induction n with
  | zero => simp [sumIdxSq]
  | succ k ih =>
    rw [sumIdxSq, mul_add, ih]
    push_cast
    ring

/-- The least-squares denominator `n·Σ(x²) − (Σx)²` over `x = 0..n-1` is
positive for `n ≥ 2`. -/
theorem trendDenom_pos (n : ℕ) (hn : 2 ≤ n) :
    0 < (n : ℝ) * sumIdxSq n - sumIdx n * sumIdx n := by
  have h2 := two_mul_sumIdx n
  have h6 := six_mul_sumIdxSq n
  have hn' : (2 : ℝ) ≤ (n : ℝ) := by exact_mod_cast hn
  have key : 12 * ((n : ℝ) * sumIdxSq n - sumIdx n * sumIdx n) =
      (n : ℝ) ^ 2 * ((n : ℝ) - 1) * ((n : ℝ) + 1) := by
    linear_combination (2 * (n : ℝ)) * h6 -
      3 * (2 * sumIdx n + (n : ℝ) * ((n : ℝ) - 1)) * h2
  have hn0 : (0 : ℝ) < (n : ℝ) := by linarith
  have hpos : 0 < (n : ℝ) ^ 2 * ((n : ℝ) - 1) * ((n : ℝ) + 1) :=
    mul_pos (mul_pos (pow_pos hn0 2) (by linarith)) (by linarith)
  linarith

/-- C5: the least-squares denominator `n·Σ(x²) − (Σx)²` over `x = 0..n-1`
is nonzero for every window length `n ≥ 2`; under the fallback's
precondition `len(history) ≥ 5` the window `history.slice(-10)` passed to
`calculateLinearTrend` has length at least 5 ≥ 2, so the `n < 2`
division-by-zero case is unreachable; and the fallback's trend is
`calculateLinearTrend` applied to that window. -/
theorem linear_trend_denominator_safe :
    (∀ n : ℕ, 2 ≤ n → (n : ℝ) * sumIdxSq n - sumIdx n * sumIdx n ≠ 0) ∧
    (∀ h : List ℝ, 5 ≤ h.length → 2 ≤ (lastN 10 h).length) ∧
    (∀ h : List ℝ, trendPart h = calculateLinearTrend (lastN 10 h)) := by
  refine ⟨fun n hn => ne_of_gt (trendDenom_pos n hn), fun h hlen => ?_, fun h => rfl⟩
  rw [lastN_length]
  omega

/-- Witness for C5 at `n = 2` and `h = [1,2,3,4,5]`. -/
theorem linear_trend_denominator_safe_witness :
    (2 ≤ 2 ∧ ((2 : ℕ) : ℝ) * sumIdxSq 2 - sumIdx 2 * sumIdx 2 ≠ 0) ∧
      (5 ≤ ([1, 2, 3, 4, 5] : List ℝ).length ∧
        2 ≤ (lastN 10 [1, 2, 3, 4, 5]).length) :=
  ⟨⟨le_refl 2, linear_trend_denominator_safe.1 2 (le_refl 2)⟩,
    by simp, linear_trend_denominator_safe.2.1 [1, 2, 3, 4, 5] (by simp)⟩

/-- Row shape of the `stock_predictions` table as written by
`generatePrediction` (useStockPrediction.ts). -/
structure PredictionData where
  symbol : String
  current_price : ℝ
  predicted_price : ℝ
  confidence : ℝ
  prediction_date : String

/-- The conflict key `symbol, prediction_date` of the upsert. -/
def predKey (p : PredictionData) : String × String := (p.symbol, p.prediction_date)

/-- Modelled from the spec: the database table behind
`supabase.from('stock_predictions')` is not part of `src/`; §4.4 specifies
"Write: upsert by (symbol, date) — replaces any existing row for the same
day", so the upsert keeps one new row and drops every row sharing its key. -/
def upsertPrediction (store : List PredictionData) (p : PredictionData) :
    List PredictionData :=
  p :: store.filter (fun q => decide (predKey q ≠ predKey p))

/-- Modelled from the spec: the read
`select('*').eq('symbol', s).eq('prediction_date', d).maybeSingle()`
returns a previously stored Prediction for the key or none (§4.4). -/
def selectPrediction (store : List PredictionData) (symbol pdate : String) :
    Option PredictionData :=
  store.find? (fun q => decide (predKey q = (symbol, pdate)))

/-- The cache write of `generatePrediction`: the stored symbol is
upper-cased (`symbol.toUpperCase()`). -/
def cachePrediction (store : List PredictionData) (symbol pdate : String)
    (cp pp cf : ℝ) : List PredictionData :=
  upsertPrediction store ⟨symbol.toUpper, cp, pp, cf, pdate⟩

/-- The cache read of `getCachedPrediction`: queries by the upper-cased
symbol and the date. -/
def getCachedPrediction (store : List PredictionData) (symbol pdate : String) :
    Option PredictionData :=
  selectPrediction store symbol.toUpper pdate

/-- Invariant of §3: at most one stored prediction per
`(symbol, predictionDate)` pair. -/
def atMostOnePerKey (store : List PredictionData) : Prop :=
  ∀ k : String × String, store.countP (fun q => decide (predKey q = k)) ≤ 1

/-- After filtering a key out, no row with that key remains. -/
theorem filter_ne_key_countP (l : List PredictionData) (k : String × String) :
    (l.filter (fun q => decide (predKey q ≠ k))).countP
      (fun q => decide (predKey q = k)) = 0 := by
  rw [List.countP_eq_zero]
  intro a ha
  rw [List.mem_filter] at ha
  simpa using ha.2

/-- C6: writing a prediction and reading the same `(symbol, date)` key
returns exactly the stored values; a second write for the same key
replaces the first, the store keeping exactly the new row under that key;
and the upsert preserves the at-most-one-row-per-key invariant. -/
theorem prediction_cache_roundtrip
    (store : List PredictionData) (sym pdate : String) (cp pp cf cp₂ pp₂ cf₂ : ℝ) :
    (getCachedPrediction (cachePrediction store sym pdate cp pp cf) sym pdate =
        some ⟨sym.toUpper, cp, pp, cf, pdate⟩) ∧
    ((cachePrediction (cachePrediction store sym pdate cp pp cf) sym pdate cp₂ pp₂ cf₂).filter
        (fun q => decide (predKey q = (sym.toUpper, pdate))) =
      [⟨sym.toUpper, cp₂, pp₂, cf₂, pdate⟩]) ∧
    (atMostOnePerKey store → atMostOnePerKey (cachePrediction store sym pdate cp pp cf)) := by
  refine ⟨?_, ?_, ?_⟩
  · simp [getCachedPrediction, cachePrediction, selectPrediction, upsertPrediction,
      List.find?_cons, predKey]
  · have h0 := filter_ne_key_countP
      (cachePrediction store sym pdate cp pp cf)
      (sym.toUpper, pdate)
    rw [List.countP_eq_length_filter, List.length_eq_zero] at h0
    simp only [cachePrediction, upsertPrediction, List.filter_cons]
    rw [show predKey ⟨sym.toUpper, cp₂, pp₂, cf₂, pdate⟩ = (sym.toUpper, pdate) from rfl]
    simp only [predKey] at h0 ⊢
    simp [h0]
  · intro hs k
    simp only [cachePrediction, upsertPrediction, List.countP_cons]
    by_cases hk : (sym.toUpper, pdate) = k
    · have h0 : (store.filter
          (fun q => decide (predKey q ≠ predKey (⟨sym.toUpper, cp, pp, cf, pdate⟩ : PredictionData)))).countP
          (fun q => decide (predKey q = k)) = 0 := by
        rw [show predKey (⟨sym.toUpper, cp, pp, cf, pdate⟩ : PredictionData) =
          (sym.toUpper, pdate) from rfl, hk]
        exact filter_ne_key_countP store k
      rw [h0]
      split <;> omega
    · have hle : (store.filter
          (fun q => decide (predKey q ≠ predKey (⟨sym.toUpper, cp, pp, cf, pdate⟩ : PredictionData)))).countP
          (fun q => decide (predKey q = k)) ≤
            store.countP (fun q => decide (predKey q = k)) :=
        (List.filter_sublist store).countP_le _
      have hpk : (decide (predKey (⟨sym.toUpper, cp, pp, cf, pdate⟩ : PredictionData) = k)) = false := by
        simpa using hk
      rw [hpk, if_neg (by simp : ¬(false = true))]
      have := hs k
      omega

/-- Witness for C6 on the empty store with key `("AAPL", "2024-01-01")`. -/
theorem prediction_cache_roundtrip_witness :
    atMostOnePerKey [] ∧
      (getCachedPrediction (cachePrediction [] "AAPL" "2024-01-01" 1 2 3) "AAPL" "2024-01-01" =
          some ⟨"AAPL".toUpper, 1, 2, 3, "2024-01-01"⟩ ∧
        atMostOnePerKey (cachePrediction [] "AAPL" "2024-01-01" 1 2 3)) := by
  have hempty : atMostOnePerKey [] := by intro k; simp
  have h := prediction_cache_roundtrip [] "AAPL" "2024-01-01" 1 2 3 4 5 6
  exact ⟨hempty, h.1, h.2.2 hempty⟩

/-- Quote shape returned by `fetchStockQuote`
(supabase/functions/stock-data/index.ts). -/
structure StockQuote where
  symbol : String
  price : ℝ
  change : ℝ
  changePercent : ℝ
  high : ℝ
  low : ℝ
  volume : ℤ
  marketCap : Option ℝ

/-- Embeds `fetchMarketOverview` (stock-data/index.ts and
useStockData.ts): each per-symbol fetch is caught into `none` on failure
(so every promise fulfills), the settled results are filtered to the
non-null fulfilled ones, and their values are returned. -/
def fetchMarketOverview (fetchStockQuote : String → Option StockQuote)
    (symbols : List String) : List StockQuote :=
  let results := symbols.map (fun s => fetchStockQuote s)
  (results.filter (fun r => r.isSome)).filterMap id

/-- The example quote for AAPL used by the specification's batch test. -/
def exAAPLQuote : StockQuote := ⟨"AAPL", 180, 1, 0.5, 181, 179, 1000, none⟩

/-- The example fetcher: AAPL succeeds, every other symbol fails. -/
def exFetch : String → Option StockQuote :=
  fun s => if s = "AAPL" then some exAAPLQuote else none

/-- C8: the batch fetch returns exactly the quotes of the symbols whose
individual fetch succeeded, in order, dropping each failure; for
`["AAPL", "ZZZZ"]` with ZZZZ failing, only AAPL's quote remains. -/
theorem market_overview_partial_failure :
    (∀ (q : String → Option StockQuote) (symbols : List String),
        fetchMarketOverview q symbols = symbols.filterMap q) ∧
    fetchMarketOverview exFetch ["AAPL", "ZZZZ"] = [exAAPLQuote] := by
  have hgen : ∀ (q : String → Option StockQuote) (symbols : List String),
      fetchMarketOverview q symbols = symbols.filterMap q := by
    intro q symbols
    unfold fetchMarketOverview
    induction symbols with
    | nil => rfl
    | cons s t ih => cases hq : q s <;> simp [hq, ih]
  refine ⟨hgen, ?_⟩
  rw [hgen]
  have h1 : exFetch "AAPL" = some exAAPLQuote := rfl
  have h2 : exFetch "ZZZZ" = none := rfl
  simp [List.filterMap_cons, h1, h2]

/-- Chart point `(timestamp, price, volume)` as returned by the history
retrieval paths. -/
structure StockChart where
  timestamp : ℤ
  price : ℝ
  volume : ℤ

/-- Raw provider item of `historical-price-full` (`{date, close, volume}`);
`new Date(item.date).getTime()` is modelled by carrying provider dates
directly as epoch-millisecond integers (the conversion is monotone). -/
structure RawHistItem where
  date : ℤ
  close : ℝ
  volume : ℤ

/-- Embeds `fetchHistoricalData` (stock-data/index.ts):
`data.historical.slice(0, 30).map(...).reverse()`. -/
def fetchHistoricalData (historical : List RawHistItem) : List StockChart :=
  ((historical.take 30).map (fun item => ⟨item.date, item.close, item.volume⟩)).reverse

/-- Raw Alpha Vantage time-series entry of `fetchStockChart`
(useStockData.ts), the key date again modelled as an epoch integer. -/
structure TimeSeriesEntry where
  date : ℤ
  close : ℝ
  volume : ℤ

/-- Embeds `fetchStockChart` (useStockData.ts):
`Object.entries(timeSeries).slice(0, 30).map(...).reverse()`. -/
def fetchStockChart (timeSeries : List TimeSeriesEntry) : List StockChart :=
  ((timeSeries.take 30).map (fun e => ⟨e.date, e.close, e.volume⟩)).reverse

/-- The geometric random-walk price recurrence shared by
`generateSimulatedChartData` (useStockData.ts) and `generateStockData`
(stockUtils.ts): each step multiplies by
`1 + (rand - 0.5) * 2 * volatility` with `volatility = 0.02`. -/
noncomputable def simPrice (basePrice : ℝ) (pr : ℕ → ℝ) : ℕ → ℝ
  | 0 => basePrice * (1 + (pr 0 - 0.5) * 2 * 0.02)
  | j + 1 => simPrice basePrice pr j * (1 + (pr (j + 1) - 0.5) * 2 * 0.02)

/-- JS `Math.round(x * 100) / 100`. -/
noncomputable def round2 (x : ℝ) : ℝ := ((round (x * 100) : ℤ) : ℝ) / 100

/-- Embeds `generateSimulatedChartData` (useStockData.ts): the loop
`for (i = 29; i >= 0; i--)`, iteration `j` having `i = 29 - j`; `pr` and
`vr` are the price and volume random streams. -/
noncomputable def generateSimulatedChartData (now : ℤ) (basePrice : ℝ)
    (pr vr : ℕ → ℝ) : List StockChart :=
  (List.range 30).map (fun (j : ℕ) =>
    ⟨now - (29 - (j : ℤ)) * 86400000,
     round2 (simPrice basePrice pr j),
     ⌊vr j * 5000000⌋ + 1000000⟩)

/-- Data point of `generateStockData` (stockUtils.ts); its `time` field (a
formatted date string in the code) is modelled as the signed day offset
`now - i`. -/
structure StockDataPoint where
  time : ℤ
  price : ℝ
  volume : ℤ

/-- Embeds `generateStockData` (stockUtils.ts): the loop
`for (i = days; i >= 0; i--)` — `days + 1` iterations, iteration `j`
having `i = days - j` — with price `Math.max(1, basePrice_j)`. -/
noncomputable def generateStockData (days : ℕ) (basePrice : ℝ)
    (pr vr : ℕ → ℝ) (now : ℤ) : List StockDataPoint :=
  (List.range (days + 1)).map (fun (j : ℕ) =>
    ⟨now - ((days : ℤ) - (j : ℤ)),
     max 1 (simPrice basePrice pr j),
     ⌊vr j * 50000000⌋ + 10000000⟩)

/-- C7, counterexample: the synthetic generator `generateStockData` with
its default `days = 30` returns 31 points, refuting "every history
retrieval returns at most 30 points". -/
theorem history_at_most_30_counterexample :
    ¬ (generateStockData 30 180 (fun _ => 0) (fun _ => 0) 0).length ≤ 30 := by
  simp [generateStockData]

/-- C7, amended: the provider-backed paths return at most 30 points and
are oldest→newest whenever the provider payload is newest-first; the
useStockData synthetic fallback returns exactly 30 strictly ascending
points; but `generateStockData` returns `days + 1` (31 by default)
ascending points. -/
theorem history_retrieval_bounds :
    (∀ raw : List RawHistItem,
        (fetchHistoricalData raw).length ≤ 30 ∧
          (raw.Pairwise (fun a b => b.date < a.date) →
            (fetchHistoricalData raw).Pairwise
              (fun p q => p.timestamp < q.timestamp))) ∧
    (∀ ts : List TimeSeriesEntry,
        (fetchStockChart ts).length ≤ 30 ∧
          (ts.Pairwise (fun a b => b.date < a.date) →
            (fetchStockChart ts).Pairwise
              (fun p q => p.timestamp < q.timestamp))) ∧
    (∀ (now : ℤ) (b : ℝ) (pr vr : ℕ → ℝ),
        (generateSimulatedChartData now b pr vr).length = 30 ∧
          (generateSimulatedChartData now b pr vr).Pairwise
            (fun p q => p.timestamp < q.timestamp)) ∧
    (∀ (days : ℕ) (b : ℝ) (pr vr : ℕ → ℝ) (now : ℤ),
        (generateStockData days b pr vr now).length = days + 1 ∧
          (generateStockData days b pr vr now).Pairwise
            (fun p q => p.time < q.time)) := by
  refine ⟨fun raw => ⟨?_, fun hp => ?_⟩, fun ts => ⟨?_, fun hp => ?_⟩,
    fun now b pr vr => ⟨?_, ?_⟩, fun days b pr vr now => ⟨?_, ?_⟩⟩
  · simp [fetchHistoricalData]
  · have h1 : (raw.take 30).Pairwise (fun a b => b.date < a.date) :=
      List.Pairwise.sublist (List.take_sublist 30 raw) hp
    have h2 : ((raw.take 30).map
        (fun item => (⟨item.date, item.close, item.volume⟩ : StockChart))).Pairwise
        (fun p q => q.timestamp < p.timestamp) :=
      List.Pairwise.map _ (fun a b hab => hab) h1
    exact List.pairwise_reverse.mpr h2
  · simp [fetchStockChart]
  · have h1 : (ts.take 30).Pairwise (fun a b => b.date < a.date) :=
      List.Pairwise.sublist (List.take_sublist 30 ts) hp
    have h2 : ((ts.take 30).map
        (fun e => (⟨e.date, e.close, e.volume⟩ : StockChart))).Pairwise
        (fun p q => q.timestamp < p.timestamp) :=
      List.Pairwise.map _ (fun a b hab => hab) h1
    exact List.pairwise_reverse.mpr h2
  · simp [generateSimulatedChartData]
  · refine List.Pairwise.map _ ?_ (List.pairwise_lt_range 30)
    intro a b hab
    show now - (29 - (a : ℤ)) * 86400000 < now - (29 - (b : ℤ)) * 86400000
    omega
  · simp [generateStockData]
  · refine List.Pairwise.map _ ?_ (List.pairwise_lt_range (days + 1))
    intro a b hab
    show now - ((days : ℤ) - (a : ℤ)) < now - ((days : ℤ) - (b : ℤ))
    omega

/-- Witness for C7's hypothesis-bearing parts on two-element descending
provider payloads. -/
theorem history_retrieval_bounds_witness :
    (List.Pairwise (fun a b => b.date < a.date)
        ([⟨2, 10, 5⟩, ⟨1, 11, 6⟩] : List RawHistItem) ∧
      (fetchHistoricalData [⟨2, 10, 5⟩, ⟨1, 11, 6⟩]).Pairwise
        (fun p q => p.timestamp < q.timestamp)) ∧
    (List.Pairwise (fun a b => b.date < a.date)
        ([⟨2, 10, 5⟩, ⟨1, 11, 6⟩] : List TimeSeriesEntry) ∧
      (fetchStockChart [⟨2, 10, 5⟩, ⟨1, 11, 6⟩]).Pairwise
        (fun p q => p.timestamp < q.timestamp)) := by
  have hraw : List.Pairwise (fun a b => b.date < a.date)
      ([⟨2, 10, 5⟩, ⟨1, 11, 6⟩] : List RawHistItem) := by
    simp [List.pairwise_cons]
  have hts : List.Pairwise (fun a b => b.date < a.date)
      ([⟨2, 10, 5⟩, ⟨1, 11, 6⟩] : List TimeSeriesEntry) := by
    simp [List.pairwise_cons]
  exact ⟨⟨hraw, (history_retrieval_bounds.1 [⟨2, 10, 5⟩, ⟨1, 11, 6⟩]).2 hraw⟩,
    ⟨hts, (history_retrieval_bounds.2.1 [⟨2, 10, 5⟩, ⟨1, 11, 6⟩]).2 hts⟩⟩

end StockCompass
